import Mathlib

/-!
# GIMX: timer test callback and dispatch loop

A shallow embedding of

* `src/shared/gasync/test/gtimer_test.c` (non-Windows build): the table of
  timers, `process` and `timer_read_callback`;
* `src/core2/emuclient2.c` (non-Windows build): argument parsing, setup and the
  fixed-period dispatch loop of `main`.

Machine integers are natural numbers or integers reduced explicitly modulo a
power of two.  Calls into collaborators that are not part of these two files
are recorded, in order, in a trace.
-/

namespace GIMX

/-! ## Machine integers -/

/-- Conversion of an integer to `unsigned int` (32 bits). -/
def toUInt32 (z : Int) : Nat := (z % 4294967296).toNat

/-- Conversion of an integer to `int` (32 bits, two's complement). -/
def toInt32 (z : Int) : Int := (z + 2147483648) % 4294967296 - 2147483648

/-- Conversion of an integer to `unsigned long long` (64 bits). -/
def toUInt64 (z : Int) : Nat := (z % 18446744073709551616).toNat

/-- Conversion of an integer to `long long` (64 bits, two's complement). -/
def toInt64 (z : Int) : Int :=
  (z + 9223372036854775808) % 18446744073709551616 - 9223372036854775808

/-! ## gtimer_test.c -/

/-- A `struct timeval`: seconds and microseconds. -/
structure timeval where
  tv_sec : Int
  tv_usec : Int
deriving DecidableEq, Repr

/-- The non-Windows `get_time()`, for the clock reading `now` of `gettimeofday`:
`now.tv_sec * 1000000 + now.tv_usec`, converted to `unsigned long long`. -/
def get_time (now : timeval) : Nat := toUInt64 (now.tv_sec * 1000000 + now.tv_usec)

/-- One entry of the static table `timers[]`. -/
structure Timer where
  /-- Period in microseconds (`unsigned int`). -/
  usec : Nat
  /-- Handle returned by `gtimer_start` (`int`). -/
  timer : Int
  /-- Deadline of the next fire (`unsigned long long`, microseconds). -/
  next : Nat
  /-- Tolerated error in percent (`unsigned char`). -/
  tolerance : Nat
  /-- Sum of the observed errors (`unsigned int`). -/
  sum : Nat
  /-- Number of fires (`unsigned int`). -/
  count : Nat
deriving DecidableEq, Repr

/-- The initial contents of `timers[]`. -/
def timers : List Timer :=
  [ ⟨1000, -1, 0, 10, 0, 0⟩, ⟨2000, -1, 0, 10, 0, 0⟩, ⟨3000, -1, 0, 10, 0, 0⟩,
    ⟨4000, -1, 0, 10, 0, 0⟩, ⟨5000, -1, 0, 10, 0, 0⟩, ⟨6000, -1, 0, 10, 0, 0⟩,
    ⟨7000, -1, 0, 10, 0, 0⟩, ⟨8000, -1, 0, 10, 0, 0⟩, ⟨9000, -1, 0, 10, 0, 0⟩,
    ⟨10000, -1, 0, 10, 0, 0⟩ ]

/-- Lines written to `stderr` by the test program. -/
inductive Msg where
  /-- "timer is off by more than %u percent: period=%uus, error=%u%%" -/
  | off_by (tolerance usec percent : Nat)
  /-- "error: timer fired too early" -/
  | fired_too_early
deriving DecidableEq, Repr

/-- The mutable state of the test program: the table, the flag behind
`set_done`/`is_done`, and what was written to `stderr`. -/
structure TestState where
  timers : List Timer
  done : Bool
  stderr : List Msg
deriving DecidableEq, Repr

/-- Modelled from the spec: `set_done` is declared in `common.h`, which is not
among the sources; it raises the process-wide termination flag that `is_done`
reads. -/
def set_done (s : TestState) : TestState := { s with done := true }

/-- The function `process(timer, diff)`; `diff` is an `unsigned int`.  The result
is `none` where the C code is undefined (index outside the table, division by a
zero period). -/
def process (s : TestState) (timer : Nat) (diff : Nat) : Option TestState :=
  match s.timers[timer]? with
  | none => none
  | some t =>
    if t.usec = 0 then none
    else
      let percent : Nat := (diff * 100 % 4294967296) / t.usec
      let s1 : TestState :=
        if toInt32 percent ≥ (t.tolerance : Int) then
          { s with stderr := s.stderr ++ [Msg.off_by t.tolerance t.usec percent] }
        else s
      let t1 : Timer := { t with sum := (t.sum + diff) % 4294967296 }
      let t2 : Timer := { t1 with count := (t1.count + 1) % 4294967296 }
      some { s1 with timers := s1.timers.set timer t2 }

/-- The loop `do { timers[user].next += timers[user].usec; } while (now > timers[user].next);`
with a bound on the number of passes; `none` when the bound is used up. -/
def catch_up : Nat → TestState → Nat → Nat → Option TestState
  | 0, _, _, _ => none
  | fuel + 1, s, user, now =>
    match s.timers[user]? with
    | none => none
    | some t =>
      let t1 : Timer := { t with next := (t.next + t.usec) % 18446744073709551616 }
      let s1 : TestState := { s with timers := s.timers.set user t1 }
      if now > t1.next then catch_up fuel s1 user now else some s1

/-- The non-Windows `timer_read_callback(user)`; `now` is the value returned by
`get_time()`.  The result is the state after the call and the returned `int`. -/
def timer_read_callback (fuel : Nat) (s : TestState) (user : Nat) (now : Nat) :
    Option (TestState × Int) :=
  match s.timers[user]? with
  | none => none
  | some t =>
    let diff : Int := toInt64 ((now : Int) - (t.next : Int))
    if diff < 0 then
      some (set_done { s with stderr := s.stderr ++ [Msg.fired_too_early] }, -1)
    else
      match process s user (toUInt32 diff) with
      | none => none
      | some s1 =>
        match catch_up fuel s1 user now with
        | none => none
        | some s2 => some (s2, 1)

/-- The deadline of timer `user`, when it exists. -/
def deadline (s : TestState) (user : Nat) : Option Nat :=
  (s.timers[user]?).map Timer.next

/-- A sequence of fires of timer `user`, at the listed times. -/
def fires (fuel : Nat) (user : Nat) : TestState → List Nat → Option TestState
  | s, [] => some s
  | s, now :: rest =>
    match timer_read_callback fuel s user now with
    | none => none
    | some r => fires fuel user r.1 rest

/-- The entry `user` still has period `usec`, and its deadline is `next0` plus
a multiple of the period, below `2^63`. -/
def OnGrid (user usec next0 : Nat) (s : TestState) : Prop :=
  ∃ t m, s.timers[user]? = some t ∧ t.usec = usec ∧ t.next = next0 + m * usec ∧
    t.next < 9223372036854775808

/-- A one-timer table used for concrete runs: period 1000 µs, deadline 5000. -/
def sample : TestState := ⟨[⟨1000, 0, 5000, 10, 0, 0⟩], false, []⟩

/-! ## emuclient2.c -/

/-- The buffer size `EVENT_BUFFER_SIZE`. -/
def EVENT_BUFFER_SIZE : Nat := 256

/-- The constant `DEFAULT_POSTPONE_COUNT`. -/
def DEFAULT_POSTPONE_COUNT : Int := 3

/-- The constant `DEFAULT_MAX_AXIS_VALUE`. -/
def DEFAULT_MAX_AXIS_VALUE : Int := 255

/-- The key code `SDLK_ESCAPE` of SDL. -/
def SDLK_ESCAPE : Nat := 27

/-- The key code `SDLK_UNKNOWN` of SDL. -/
def SDLK_UNKNOWN : Nat := 0

/-- The controller types selected on the command line. -/
inductive e_controller_type where
  | C_TYPE_JOYSTICK
  | C_TYPE_360_PAD
  | C_TYPE_SIXAXIS
  | C_TYPE_PS2_PAD
  | C_TYPE_GPP
deriving DecidableEq, Repr

/-- A `struct timespec`: seconds and nanoseconds. -/
structure timespec where
  tv_sec : Int
  tv_nsec : Int
deriving DecidableEq, Repr

/-- The values of `event->type` that `main` tells apart. -/
inductive EventType where
  | SDL_QUIT
  | SDL_KEYDOWN
  | SDL_KEYUP
  | SDL_MOUSEBUTTONDOWN
  | SDL_MOUSEMOTION
  | other (code : Nat)
deriving DecidableEq, Repr

/-- The fields of an `SDL_Event` that `main` reads. -/
structure SDL_Event where
  type : EventType
  /-- The field `key.which` or `button.which`. -/
  which : Nat
  /-- The field `key.keysym.sym`. -/
  sym : Nat
  /-- The field `button.button`. -/
  button : Nat
deriving DecidableEq, Repr

/-- Undefined behaviour that `main` can run into. -/
inductive Fault where
  /-- A null pointer handed to `atoi`. -/
  | null_argument
  /-- An integer division by zero. -/
  | division_by_zero
  /-- A shift by a negative amount or by the width of `int` or more. -/
  | shift_out_of_range
deriving DecidableEq, Repr

deriving instance DecidableEq for Except

/-- The variables assigned while the arguments are read, and `values`, a record
(not a variable of the program) of the indices `i` at which `argv[++i]` was read
as the value of an option. -/
structure Settings where
  grab : Int
  config_file : Option String
  read : Int
  portname : Option String
  keygen : Option String
  refresh : Int
  postpone_count : Int
  max_axis_value : Int
  mean_axis_value : Int
  subpos : Int
  serial : Int
  display : Int
  force_updates : Int
  check_config : Int
  ctype : e_controller_type
  values : List Nat
deriving DecidableEq, Repr

/-- The initial values of these variables; `DEFAULT_REFRESH_PERIOD` is defined
in a header that is not part of the sources and is a parameter. -/
def Settings.initial (DEFAULT_REFRESH_PERIOD : Int) : Settings :=
  { grab := 1, config_file := none, read := 0, portname := none, keygen := none,
    refresh := DEFAULT_REFRESH_PERIOD, postpone_count := DEFAULT_POSTPONE_COUNT,
    max_axis_value := DEFAULT_MAX_AXIS_VALUE,
    mean_axis_value := Int.tdiv DEFAULT_MAX_AXIS_VALUE 2,
    subpos := 0, serial := 0, display := 0, force_updates := 0, check_config := 0,
    ctype := e_controller_type.C_TYPE_JOYSTICK, values := [] }

/-- The digits of `atoi`: the value of the leading decimal digits. -/
def atoi_digits : List Char → Int → Int
  | [], acc => acc
  | c :: cs, acc => if c.isDigit then atoi_digits cs (acc * 10 + ((c.toNat - 48 : Nat) : Int)) else acc

/-- The sign and digits of `atoi`. -/
def atoi_signed : List Char → Int
  | '-' :: cs => - atoi_digits cs 0
  | '+' :: cs => atoi_digits cs 0
  | cs => atoi_digits cs 0

/-- The C library predicate `isspace` in the "C" locale: space, and the control
characters tab, line feed, vertical tab, form feed and carriage return. -/
def isspace (c : Char) : Bool :=
  c.toNat = 32 || (9 ≤ c.toNat && c.toNat ≤ 13)

/-- The saturation of `strtol`: a value outside the range of `long` (64 bits)
is replaced by the nearest bound. -/
def clamp_long (z : Int) : Int :=
  if z < -9223372036854775808 then -9223372036854775808
  else if 9223372036854775807 < z then 9223372036854775807
  else z

/-- The C library function `atoi`, as `(int) strtol(s, NULL, 10)`: leading white
space, an optional sign, then decimal digits; the value saturates at the bounds
of `long` and is then converted to `int`. -/
def atoi (s : String) : Int :=
  toInt32 (clamp_long (atoi_signed (s.toList.dropWhile isspace)))

/-- The body of the loop `for (i = 1; i < argc; ++i)` that reads the arguments,
from index `i` on, with a bound on the number of passes; `argc` is the length
of `argv`, and `argv[argc]` is the null pointer.  A pass that reads `argv[++i]`
continues at `i + 2`.  Arithmetic on `int` wraps around (two's complement);
`atoi` of the null pointer, a division by zero and a shift outside `0..31` are
faults. -/
def parse_from (D : Int) (argv : List String) : Nat → Nat → Settings → Except Fault Settings
  | 0, _, st => Except.ok st
  | fuel + 1, i, st =>
    if i < argv.length then
      match argv[i]? with
      | none => Except.ok st
      | some a =>
        if a = "--nograb" then
          parse_from D argv fuel (i + 1) { st with grab := 0 }
        else if a = "--config" ∧ i < argv.length then
          parse_from D argv fuel (i + 2)
            { st with config_file := argv[i + 1]?, read := 1, values := st.values ++ [i + 1] }
        else if a = "--port" ∧ i < argv.length then
          parse_from D argv fuel (i + 2)
            { st with portname := argv[i + 1]?, values := st.values ++ [i + 1] }
        else if a = "--status" then
          parse_from D argv fuel (i + 1) { st with display := 1 }
        else if a = "--refresh" then
          match argv[i + 1]? with
          | none => Except.error Fault.null_argument
          | some v =>
            let refresh := toInt32 (atoi v * 1000)
            if refresh = 0 then Except.error Fault.division_by_zero
            else
              parse_from D argv fuel (i + 2)
                { st with refresh := refresh,
                          postpone_count := toInt32 (Int.tdiv (toInt32 (3 * D)) refresh),
                          values := st.values ++ [i + 1] }
        else if a = "--precision" then
          match argv[i + 1]? with
          | none => Except.error Fault.null_argument
          | some v =>
            let n := atoi v
            if n < 0 ∨ 32 ≤ n then Except.error Fault.shift_out_of_range
            else
              let max_axis_value := toInt32 (toInt32 (2 ^ n.toNat) - 1)
              parse_from D argv fuel (i + 2)
                { st with max_axis_value := max_axis_value,
                          mean_axis_value := Int.tdiv max_axis_value 2,
                          values := st.values ++ [i + 1] }
        else if a = "--serial" then
          parse_from D argv fuel (i + 1) { st with serial := 1 }
        else if a = "--subpos" then
          parse_from D argv fuel (i + 1) { st with subpos := 1 }
        else if a = "--force-updates" then
          parse_from D argv fuel (i + 1) { st with force_updates := 1 }
        else if a = "--check" then
          parse_from D argv fuel (i + 1) { st with check_config := 1 }
        else if a = "--joystick" then
          parse_from D argv fuel (i + 1) { st with ctype := e_controller_type.C_TYPE_JOYSTICK }
        else if a = "--360pad" then
          parse_from D argv fuel (i + 1) { st with ctype := e_controller_type.C_TYPE_360_PAD }
        else if a = "--Sixaxis" then
          parse_from D argv fuel (i + 1) { st with ctype := e_controller_type.C_TYPE_SIXAXIS }
        else if a = "--PS2pad" then
          parse_from D argv fuel (i + 1) { st with ctype := e_controller_type.C_TYPE_PS2_PAD }
        else if a = "--GPP" then
          parse_from D argv fuel (i + 1) { st with ctype := e_controller_type.C_TYPE_GPP }
        else if a = "--keygen" ∧ i < argv.length then
          parse_from D argv fuel (i + 2)
            { st with keygen := argv[i + 1]?, values := st.values ++ [i + 1] }
        else
          parse_from D argv fuel (i + 1) st
    else Except.ok st

/-- The argument loop of `main`, from `i = 1`.  Every pass advances `i`, so
`argc` passes are enough. -/
def parse (D : Int) (argv : List String) : Except Fault Settings :=
  parse_from D argv argv.length 1 (Settings.initial D)

/-- The calls `main` makes into the C library, SDL and the other modules of the
program, and the lines it prints, in the order in which they happen. -/
inductive Call where
  | sched_setscheduler
  | setlinebuf
  | getpwuid
  | setlocale
  /-- The line "max_axis_value: %d". -/
  | printf_max_axis_value (v : Int)
  | initialize_macros
  /-- The pair `sixaxis_init(state + i)`, `memset(controller + i, ...)`. -/
  | sixaxis_init (i : Nat)
  | sdl_initialize
  /-- The line "sdl initialized". -/
  | printf_sdl_initialized
  | usleep (usec : Int)
  | sdl_grab
  | read_config_file (file : Option String)
  | free_config
  | sdl_free_mk
  | sdl_release_unused
  | serial_connect (portname : Option String)
  | gpp_connect
  | tcp_connect
  | get_key_from_buffer (keygen : String)
  | SDL_PushEvent (sym : Nat)
  | err (eval : Int) (fmt : String)
  | gettimeofday (tv : timeval)
  | macro_process
  | calibration_test
  | SDL_PumpEvents
  | SDL_PeepEvents (num_evt : Nat)
  /-- The line "buffer too small!!!". -/
  | printf_buffer_too_small
  | cal_skip_event (e : SDL_Event)
  | cfg_process_event (e : SDL_Event)
  | cfg_process_motion_event (e : SDL_Event)
  | cfg_trigger_lookup (e : SDL_Event)
  | cfg_intensity_lookup (e : SDL_Event)
  | cal_key (which sym : Nat) (down : Int)
  | macro_lookup (which sym : Nat)
  | cal_button (which button : Nat)
  | cfg_process_motion
  | cfg_config_activation
  | serial_send (ctype : e_controller_type) (force_updates : Int)
  | gpp_send (force_updates : Int)
  | tcp_send (force_updates : Int)
  | nanosleep (tw : timespec)
  /-- The line "processing time higher than %dus: %dus!!". -/
  | printf_processing_time (refresh : Int) (time : Int)
  /-- The line "Exiting". -/
  | printf_exiting
  | free_macros
  | sdl_quit
  | serial_close
  | gpp_disconnect
  | xmlCleanupParser
deriving DecidableEq, Repr

/-- Holds of the transport sends `serial_send`, `gpp_send` and `tcp_send`. -/
def Call.isSend : Call → Bool
  | Call.serial_send _ _ => true
  | Call.gpp_send _ => true
  | Call.tcp_send _ => true
  | _ => false

/-- Holds of the sleep request `nanosleep`. -/
def Call.isSleep : Call → Bool
  | Call.nanosleep _ => true
  | _ => false

/-- Holds of the overrun warning "processing time higher than ...". -/
def Call.isOverrunWarning : Call → Bool
  | Call.printf_processing_time _ _ => true
  | _ => false

/-- Holds of `gettimeofday`, the first call of every pass of the dispatch loop. -/
def Call.isGettimeofday : Call → Bool
  | Call.gettimeofday _ => true
  | _ => false

/-- The events handed to `cfg_trigger_lookup`, in order. -/
def lookups : List Call → List SDL_Event
  | [] => []
  | Call.cfg_trigger_lookup e :: cs => e :: lookups cs
  | _ :: cs => lookups cs

/-- What one pass of the dispatch loop observes: the two clock readings, and the
batch returned by `SDL_PeepEvents`, each event with the answer `cal_skip_event`
gives for it. -/
structure Observation where
  t0 : timeval
  events : List (SDL_Event × Bool)
  t1 : timeval
deriving DecidableEq, Repr

/-- The variables the dispatch loop writes: the global `done` and the locals
`time_to_sleep` and `tw`, which are declared outside the loop. -/
structure LoopVars where
  done : Int
  time_to_sleep : Int
  tw : timespec
deriving DecidableEq, Repr

/-- The body of `for (event = events; event < events + num_evt; ++event)` for one
event: the new value of `done` and the calls made. -/
def handle_event (done : Int) (e : SDL_Event) (skip : Bool) : Int × List Call :=
  let c1 : List Call :=
    if e.type ≠ EventType.SDL_MOUSEMOTION then
      if !skip then [Call.cal_skip_event e, Call.cfg_process_event e]
      else [Call.cal_skip_event e]
    else [Call.cfg_process_motion_event e]
  let c2 : List Call := [Call.cfg_trigger_lookup e, Call.cfg_intensity_lookup e]
  match e.type with
  | EventType.SDL_QUIT => (1, c1 ++ c2)
  | EventType.SDL_KEYDOWN =>
    (if e.sym = SDLK_ESCAPE then 1 else done,
      c1 ++ c2 ++ [Call.cal_key e.which e.sym 1, Call.macro_lookup e.which e.sym])
  | EventType.SDL_KEYUP => (done, c1 ++ c2 ++ [Call.cal_key e.which e.sym 0])
  | EventType.SDL_MOUSEBUTTONDOWN => (done, c1 ++ c2 ++ [Call.cal_button e.which e.button])
  | _ => (done, c1 ++ c2)

/-- The loop over the captured batch. -/
def handle_events : List (SDL_Event × Bool) → Int → Int × List Call
  | [], done => (done, [])
  | (e, skip) :: rest, done =>
    let r := handle_event done e skip
    let r2 := handle_events rest r.1
    (r2.1, r.2 ++ r2.2)

/-- The transport send of one pass. -/
def send (st : Settings) : List Call :=
  if st.serial ≠ 0 then
    if st.ctype ≠ e_controller_type.C_TYPE_GPP then [Call.serial_send st.ctype st.force_updates]
    else [Call.gpp_send st.force_updates]
  else [Call.tcp_send st.force_updates]

/-- The assignment
`time_to_sleep = refresh - ((t1.tv_sec * 1000000 + t1.tv_usec) - (t0.tv_sec * 1000000 + t0.tv_usec))`:
the arithmetic is done in `long` and the result is converted to `int`. -/
def time_to_sleep (refresh : Int) (t0 t1 : timeval) : Int :=
  toInt32 (refresh - ((t1.tv_sec * 1000000 + t1.tv_usec) - (t0.tv_sec * 1000000 + t0.tv_usec)))

/-- The time between the two clock readings of a pass, in microseconds. -/
def elapsed (t0 t1 : timeval) : Int :=
  (t1.tv_sec * 1000000 + t1.tv_usec) - (t0.tv_sec * 1000000 + t0.tv_usec)

/-- The assignments `tw.tv_sec = time_to_sleep / 1000000;` and
`tw.tv_nsec = (time_to_sleep - tw.tv_sec) * 1000;`. -/
def sleep_time (time_to_sleep : Int) : timespec :=
  let tv_sec := Int.tdiv time_to_sleep 1000000
  { tv_sec := tv_sec, tv_nsec := (time_to_sleep - tv_sec) * 1000 }

/-- The end of a pass: either the sleep or the overrun warning. -/
def sleep_or_warn (refresh : Int) (time_to_sleep : Int) (tw : timespec) : List Call :=
  if time_to_sleep > 0 then [Call.nanosleep tw]
  else [Call.printf_processing_time refresh (toInt32 (refresh - time_to_sleep))]

/-- One pass of `while (!done)`: the variables after it and the calls made. -/
def iteration (st : Settings) (o : Observation) (v : LoopVars) : LoopVars × List Call :=
  let capture : List Call :=
    [Call.gettimeofday o.t0, Call.macro_process, Call.calibration_test, Call.SDL_PumpEvents,
      Call.SDL_PeepEvents o.events.length]
  let full : List Call :=
    if o.events.length = EVENT_BUFFER_SIZE then [Call.printf_buffer_too_small] else []
  let r := handle_events o.events v.done
  let tts := time_to_sleep st.refresh o.t0 o.t1
  let tw := sleep_time tts
  ({ done := r.1, time_to_sleep := tts, tw := tw },
    capture ++ full ++ r.2 ++ [Call.cfg_process_motion, Call.cfg_config_activation] ++ send st
      ++ [Call.gettimeofday o.t1] ++ sleep_or_warn st.refresh tts tw)

/-- The loop `while (!done) { ... }` run against the listed observations, one
per pass.  The result is `none` when the loop is still running after the last
of them; otherwise it gives the variables at the exit, the calls made and the
observations that were not used. -/
def dispatch_loop (st : Settings) :
    List Observation → LoopVars → Option (LoopVars × List Call × List Observation)
  | [], v => if v.done ≠ 0 then some (v, [], []) else none
  | o :: rest, v =>
    if v.done ≠ 0 then some (v, [], o :: rest)
    else
      let r := iteration st o v
      match dispatch_loop st rest r.1 with
      | none => none
      | some (v2, calls, left) => some (v2, r.2 ++ calls, left)

/-- What the collaborators of `main` answer during one run. -/
structure Env where
  /-- The constant `DEFAULT_REFRESH_PERIOD`. -/
  DEFAULT_REFRESH_PERIOD : Int
  /-- The constant `MAX_CONTROLLERS`. -/
  MAX_CONTROLLERS : Nat
  /-- The result of `sdl_initialize()`. -/
  sdl_initialize : Int
  /-- The variable `merge_all_devices` after the configuration was read. -/
  merge_all_devices : Int
  /-- The result of `serial_connect(portname)`. -/
  serial_connect : Int
  /-- The result of `gpp_connect()`. -/
  gpp_connect : Int
  /-- The result of `tcp_connect()`. -/
  tcp_connect : Int
  /-- The result of `get_key_from_buffer`. -/
  get_key_from_buffer : String → Nat
  /-- What the passes of the dispatch loop observe. -/
  observations : List Observation

/-- How a run of `main` ends. -/
inductive Outcome where
  /-- The process ended with this exit status. -/
  | exit (status : Int) (calls : List Call)
  /-- The run reached undefined behaviour. -/
  | undefined (f : Fault) (calls : List Call)
  /-- The dispatch loop was still running after the last observation. -/
  | running (calls : List Call)
deriving DecidableEq, Repr

/-- The label `EXIT:` and what follows it. -/
def cleanup (st : Settings) : List Call :=
  [Call.free_macros, Call.free_config, Call.sdl_quit]
    ++ (if st.serial ≠ 0 then
          if st.ctype ≠ e_controller_type.C_TYPE_GPP then [Call.serial_close]
          else [Call.gpp_disconnect]
        else [])
    ++ [Call.xmlCleanupParser]

/-- The part of `main` from `done = 0;` on.  The locals `time_to_sleep` and `tw`
are not initialised in the program; every pass assigns them before use. -/
def run (env : Env) (st : Settings) (calls : List Call) : Outcome :=
  match dispatch_loop st env.observations { done := 0, time_to_sleep := 0, tw := ⟨0, 0⟩ } with
  | none => Outcome.running calls
  | some (_, loop_calls, _) =>
    Outcome.exit 0 (calls ++ loop_calls ++ [Call.printf_exiting] ++ cleanup st)

/-- The part of `main` from `if (keygen)` on. -/
def inject_key (env : Env) (st : Settings) (calls : List Call) : Outcome :=
  match st.keygen with
  | none => run env st calls
  | some k =>
    let sym := env.get_key_from_buffer k
    if sym ≠ SDLK_UNKNOWN then
      run env st (calls ++ [Call.get_key_from_buffer k, Call.SDL_PushEvent sym])
    else
      Outcome.exit 1 (calls ++ [Call.get_key_from_buffer k,
        Call.err 1 "Unknown key name for argument --keygen!"])

/-- The part of `main` from `if (serial)` on. -/
def connect (env : Env) (st : Settings) (calls : List Call) : Outcome :=
  if st.serial ≠ 0 then
    if st.ctype ≠ e_controller_type.C_TYPE_GPP then
      if env.serial_connect < 0 then
        Outcome.exit 1 (calls ++ [Call.serial_connect st.portname, Call.err 1 "serial_connect"])
      else inject_key env st (calls ++ [Call.serial_connect st.portname])
    else
      if env.gpp_connect < 0 then
        Outcome.exit 1 (calls ++ [Call.gpp_connect, Call.err 1 "gpp_connect"])
      else inject_key env st (calls ++ [Call.gpp_connect])
  else if env.tcp_connect < 0 then
    Outcome.exit 1 (calls ++ [Call.tcp_connect, Call.err 1 "tcp_connect"])
  else inject_key env st (calls ++ [Call.tcp_connect])

/-- The part of `main` after the arguments were read, up to the dispatch loop.
The two floating-point scale factors `axis_scale` and `frequency_scale` are
only stored for other modules and are left out. -/
def setup (env : Env) (st : Settings) : Outcome :=
  let c0 : List Call :=
    (if st.display = 1 then [Call.printf_max_axis_value st.max_axis_value] else [])
      ++ [Call.initialize_macros]
      ++ (List.range env.MAX_CONTROLLERS).map Call.sixaxis_init
      ++ [Call.sdl_initialize]
  if env.sdl_initialize = 0 then
    Outcome.exit 1 (c0 ++ [Call.err 1 "can't init sdl"])
  else
    let c1 := c0 ++ (if st.display ≠ 0 then [Call.printf_sdl_initialized] else [])
    let c2 := c1 ++ (if st.grab ≠ 0 then [Call.usleep 1000000, Call.sdl_grab] else [])
    if st.read = 1 then
      let c3 := c2 ++ [Call.read_config_file st.config_file]
      if st.check_config ≠ 0 then
        Outcome.exit 0 (c3 ++ cleanup st)
      else
        let c4 := c3 ++ (if env.merge_all_devices ≠ 0 then
            [Call.free_config, Call.sdl_free_mk, Call.read_config_file st.config_file]
          else [])
        connect env st (c4 ++ [Call.sdl_release_unused])
    else connect env st c2

/-- The non-Windows `main(argc, argv)`. -/
def main (env : Env) (argv : List String) : Outcome :=
  let c0 : List Call :=
    [Call.sched_setscheduler, Call.setlinebuf, Call.getpwuid, Call.setlocale]
  match parse env.DEFAULT_REFRESH_PERIOD argv with
  | Except.error f => Outcome.undefined f c0
  | Except.ok st =>
    match setup env st with
    | Outcome.exit status calls => Outcome.exit status (c0 ++ calls)
    | Outcome.undefined f calls => Outcome.undefined f (c0 ++ calls)
    | Outcome.running calls => Outcome.running (c0 ++ calls)

/-- A run environment for concrete examples: every collaborator succeeds and
the single pass of the loop sees one `SDL_QUIT` event. -/
def quiet : Env :=
  { DEFAULT_REFRESH_PERIOD := 10000, MAX_CONTROLLERS := 1, sdl_initialize := 1,
    merge_all_devices := 0, serial_connect := 0, gpp_connect := 0, tcp_connect := 0,
    get_key_from_buffer := fun _ => 0,
    observations := [⟨⟨100, 0⟩, [(⟨EventType.SDL_QUIT, 0, 0, 0⟩, false)], ⟨100, 2000⟩⟩] }

/-! # Theorems -/

/-! ### Facts about the catch-up loop -/

/-- A clock reading after the epoch and before the year 294000 gives a
timestamp below `2^63`. -/
theorem get_time_lt (now : timeval) (h1 : 0 ≤ now.tv_sec) (h2 : now.tv_sec < 9223372036854)
    (h3 : 0 ≤ now.tv_usec) (h4 : now.tv_usec < 1000000) :
    get_time now < 9223372036854775808 := by
  have hx : (now.tv_sec * 1000000 + now.tv_usec) % 18446744073709551616
      = now.tv_sec * 1000000 + now.tv_usec := Int.emod_eq_of_lt (by omega) (by omega)
  unfold get_time toUInt64
  rw [hx]
  omega

theorem getElem?_lt_length {l : List Timer} {i : Nat} {t : Timer} (h : l[i]? = some t) :
    i < l.length := by
  obtain ⟨h1, _⟩ := List.getElem?_eq_some.mp h
  exact h1

/-- With a positive period and no wrap-around of the 64-bit counter the loop
ends within `(now - next) / usec + 1` passes, and it stops at the first deadline
`next + k * usec`, `k ≥ 1`, that is not before `now`. -/
theorem catch_up_spec (user now : Nat) :
    ∀ (fuel : Nat) (s : TestState) (t : Timer),
      s.timers[user]? = some t → 0 < t.usec →
      now + t.usec < 18446744073709551616 → t.next + t.usec < 18446744073709551616 →
      (now - t.next) / t.usec < fuel →
      ∃ k, 0 < k ∧ now ≤ t.next + k * t.usec ∧ (1 < k → t.next + (k - 1) * t.usec < now) ∧
        catch_up fuel s user now
          = some { s with timers := s.timers.set user { t with next := t.next + k * t.usec } } := by
  intro fuel
  induction fuel with
  | zero => intro s t _ _ _ _ hf; exact absurd hf (Nat.not_lt_zero _)
  | succ n ih =>
    intro s t ht hu hnow hnext hf
    have hlen := getElem?_lt_length ht
    have hmod : (t.next + t.usec) % 18446744073709551616 = t.next + t.usec := by omega
    by_cases hgt : now > t.next + t.usec
    · have hdiv : (now - t.next) / t.usec = (now - (t.next + t.usec)) / t.usec + 1 := by
        have : now - t.next = (now - (t.next + t.usec)) + t.usec := by omega
        rw [this, Nat.add_div_right _ hu]
      obtain ⟨k, hk0, hk1, hk2, hk3⟩ :=
        ih { s with timers := s.timers.set user { t with next := t.next + t.usec } }
          { t with next := t.next + t.usec }
          (by simpa using List.getElem?_set_self hlen) hu hnow (by simp only; omega)
          (by simp only; omega)
      refine ⟨k + 1, by omega, ?_, ?_, ?_⟩
      · simp only at hk1; rw [Nat.add_mul]; omega
      · intro _; simp only [Nat.add_sub_cancel]
        by_cases hk : 1 < k
        · have := hk2 hk
          simp only at this
          have hkk : (k - 1) * t.usec + t.usec = k * t.usec := by
            rw [← Nat.succ_mul]; congr 1; omega
          omega
        · have : k = 1 := by omega
          subst this; omega
      · simp only [catch_up, ht, hmod, hgt, if_true]
        rw [hk3]
        simp only [List.set_set, Nat.add_mul, Nat.one_mul]
        congr 3
        simp only [Timer.mk.injEq, true_and, and_true]
        omega
    · refine ⟨1, by omega, by omega, by omega, ?_⟩
      simp only [catch_up, ht, hmod, hgt, if_false, Nat.one_mul]

/-- The number `k` of `catch_up_spec` is the least positive one. -/
theorem least_of_pred_lt {usec next now k : Nat}
    (h2 : 1 < k → next + (k - 1) * usec < now) :
    ∀ j, 0 < j → now ≤ next + j * usec → k ≤ j := by
  intro j hj hle
  by_contra hlt
  have hk : 1 < k := by omega
  have h := h2 hk
  have : j * usec ≤ (k - 1) * usec := Nat.mul_le_mul_right _ (by omega)
  omega

/-- What `process` does to a state whose entry `timer` is `t` with a non-zero
period: the entry gets `diff` added to `sum` and one added to `count`, both as
`unsigned int`; at most one line, never the early-fire error, goes to `stderr`. -/
theorem process_spec {s : TestState} {timer : Nat} {t : Timer} (diff : Nat)
    (ht : s.timers[timer]? = some t) (hu : 0 < t.usec) :
    ∃ out, Msg.fired_too_early ∉ out ∧ process s timer diff
      = some { timers := s.timers.set timer
                 { t with sum := (t.sum + diff) % 4294967296,
                          count := (t.count + 1) % 4294967296 },
               done := s.done, stderr := s.stderr ++ out } := by
  have hu0 : ¬ t.usec = 0 := by omega
  by_cases hp : toInt32 ((diff * 100 % 4294967296 / t.usec : Nat) : Int) ≥ (t.tolerance : Int)
  · exact ⟨[Msg.off_by t.tolerance t.usec (diff * 100 % 4294967296 / t.usec)], by simp, by
      simp only [process, ht, hu0, if_false, hp, if_true]⟩
  · exact ⟨[], by simp, by simp only [process, ht, hu0, if_false, hp, List.append_nil]⟩

/-- A fire at or after the deadline: `process` runs on the entry, then the
deadline moves to the first `next + k * usec`, `k ≥ 1`, that is not before
`now`; the call returns `1`. -/
theorem timer_read_callback_on_time {fuel : Nat} {s : TestState} {user now : Nat} {t : Timer}
    (ht : s.timers[user]? = some t) (hu : 0 < t.usec) (hle : t.next ≤ now)
    (hdiff : now - t.next < 9223372036854775808)
    (hnow : now + t.usec < 18446744073709551616)
    (hf : (now - t.next) / t.usec < fuel) :
    ∃ k out, 0 < k ∧ now ≤ t.next + k * t.usec ∧ (1 < k → t.next + (k - 1) * t.usec < now) ∧
      Msg.fired_too_early ∉ out ∧
      process s user ((now - t.next) % 4294967296)
        = some { timers := s.timers.set user
                   { t with sum := (t.sum + (now - t.next)) % 4294967296,
                            count := (t.count + 1) % 4294967296 },
                 done := s.done, stderr := s.stderr ++ out } ∧
      timer_read_callback fuel s user now
        = some ({ timers := s.timers.set user
                    { t with sum := (t.sum + (now - t.next)) % 4294967296,
                             count := (t.count + 1) % 4294967296,
                             next := t.next + k * t.usec },
                  done := s.done, stderr := s.stderr ++ out }, 1) := by
  have hlen := getElem?_lt_length ht
  have hd : toInt64 ((now : Int) - (t.next : Int)) = ((now - t.next : Nat) : Int) := by
    unfold toInt64; omega
  have hd32 : toUInt32 ((now - t.next : Nat) : Int) = (now - t.next) % 4294967296 := by
    unfold toUInt32; omega
  have hsum : (t.sum + (now - t.next) % 4294967296) % 4294967296
      = (t.sum + (now - t.next)) % 4294967296 := by omega
  obtain ⟨out, hout, hp⟩ := process_spec ((now - t.next) % 4294967296) ht hu
  rw [hsum] at hp
  obtain ⟨k, hk0, hk1, hk2, hk3⟩ := catch_up_spec user now fuel
    { timers := s.timers.set user
        { t with sum := (t.sum + (now - t.next)) % 4294967296,
                 count := (t.count + 1) % 4294967296 },
      done := s.done, stderr := s.stderr ++ out }
    { t with sum := (t.sum + (now - t.next)) % 4294967296,
             count := (t.count + 1) % 4294967296 }
    (by simpa using List.getElem?_set_self hlen) hu hnow (by simp only; omega) hf
  refine ⟨k, out, hk0, hk1, hk2, hout, hp, ?_⟩
  have hnn : ¬ (((now - t.next : Nat) : Int) < 0) := by omega
  simp only [timer_read_callback, ht, hd, hnn, if_false, hd32, hp, hk3, List.set_set]

/-- A fire before the deadline: the anomaly is reported, the flag is raised, the
table is left as it is and the call returns `-1`. -/
theorem timer_read_callback_too_early {s : TestState} {user now : Nat} {t : Timer}
    (fuel : Nat) (ht : s.timers[user]? = some t) (hlt : now < t.next)
    (hdiff : t.next - now ≤ 9223372036854775808) :
    timer_read_callback fuel s user now
      = some ({ timers := s.timers, done := true,
                stderr := s.stderr ++ [Msg.fired_too_early] }, -1) := by
  have hd : toInt64 ((now : Int) - (t.next : Int)) < 0 := by
    unfold toInt64; omega
  simp only [timer_read_callback, ht, hd, if_true, set_done]

/-- One fire keeps the deadline on the grid; it leaves it unchanged when the
fire is early and moves it up by a positive multiple of the period otherwise. -/
theorem fire_keeps_grid {fuel user usec next0 now : Nat} {s : TestState}
    (hs : OnGrid user usec next0 s) (hu : 0 < usec)
    (hnow : now + usec < 9223372036854775808) (hf : now / usec < fuel) :
    ∃ s2 r d, timer_read_callback fuel s user now = some (s2, r) ∧
      OnGrid user usec next0 s2 ∧ deadline s user = some d ∧
      ((now < d ∧ r = -1 ∧ s2.done = true ∧ deadline s2 user = some d) ∨
       (d ≤ now ∧ r = 1 ∧ s2.done = s.done ∧
          ∃ k, 0 < k ∧ deadline s2 user = some (d + k * usec) ∧ d < d + k * usec)) := by
  obtain ⟨t, m, ht, htu, htn, hlt⟩ := hs
  have hlen := getElem?_lt_length ht
  have hdl : deadline s user = some t.next := by simp [deadline, ht]
  by_cases hearly : now < t.next
  · refine ⟨_, -1, t.next, timer_read_callback_too_early fuel ht hearly (by omega),
      ⟨t, m, ht, htu, htn, hlt⟩, hdl, Or.inl ⟨hearly, rfl, rfl, ?_⟩⟩
    simp [deadline, ht]
  · have hle : t.next ≤ now := by omega
    have hf2 : (now - t.next) / t.usec < fuel := by
      rw [htu]
      exact lt_of_le_of_lt (Nat.div_le_div_right (Nat.sub_le _ _)) hf
    obtain ⟨k, out, hk0, hk1, hk2, _, _, hcb⟩ :=
      timer_read_callback_on_time ht (by omega) hle (by omega) (by omega) hf2
    have hbound : t.next + k * t.usec < 9223372036854775808 := by
      by_cases hk : 1 < k
      · have h := hk2 hk
        have hkk : (k - 1) * t.usec + t.usec = k * t.usec := by
          rw [← Nat.succ_mul]; congr 1; omega
        omega
      · have : k = 1 := by omega
        subst this; omega
    have hpos : 0 < k * usec := Nat.mul_pos hk0 hu
    refine ⟨_, 1, t.next, hcb, ⟨_, m + k, List.getElem?_set_self hlen, htu, ?_, ?_⟩, hdl,
      Or.inr ⟨hle, rfl, rfl, k, hk0, ?_, by omega⟩⟩
    · simp only [htn, htu, Nat.add_mul]; omega
    · simpa using hbound
    · simp [deadline, List.getElem?_set_self hlen, htu]

/-- Any sequence of fires keeps the deadline on the grid. -/
theorem fires_keep_grid {fuel user usec next0 : Nat} (hu : 0 < usec) :
    ∀ (l : List Nat) (s : TestState), OnGrid user usec next0 s →
      (∀ now ∈ l, now + usec < 9223372036854775808 ∧ now / usec < fuel) →
      ∃ s1, fires fuel user s l = some s1 ∧ OnGrid user usec next0 s1 := by
  intro l
  induction l with
  | nil => intro s hs _; exact ⟨s, rfl, hs⟩
  | cons now rest ih =>
    intro s hs hall
    obtain ⟨h1, h2⟩ := hall now (List.mem_cons_self _ _)
    obtain ⟨s2, r, d, hcb, hg, _, _⟩ := fire_keeps_grid hs hu h1 h2
    obtain ⟨s3, hf3, hg3⟩ := ih s2 hg (fun x hx => hall x (List.mem_cons_of_mem _ hx))
    exact ⟨s3, by simp only [fires, hcb, hf3], hg3⟩

/-! ### Facts about the dispatch loop -/

/-- Holds of the events that make the loop stop: `SDL_QUIT`, and a key-down of
the escape key. -/
theorem handle_event_done_of_quit (done : Int) (e : SDL_Event) (skip : Bool)
    (h : e.type = EventType.SDL_QUIT ∨ (e.type = EventType.SDL_KEYDOWN ∧ e.sym = SDLK_ESCAPE)) :
    (handle_event done e skip).1 = 1 := by
  rcases h with h | ⟨h1, h2⟩
  · simp [handle_event, h]
  · simp [handle_event, h1, h2]

/-- No event resets `done`. -/
theorem handle_event_done_stays (e : SDL_Event) (skip : Bool) :
    (handle_event 1 e skip).1 = 1 := by
  rcases e with ⟨ty, w, sy, b⟩
  cases ty <;> simp [handle_event]

theorem handle_events_done_stays : ∀ (l : List (SDL_Event × Bool)), (handle_events l 1).1 = 1 := by
  intro l
  induction l with
  | nil => rfl
  | cons p rest ih =>
    obtain ⟨e, skip⟩ := p
    simp only [handle_events, handle_event_done_stays, ih]

/-- A batch with a stopping event leaves `done` at 1, wherever the event is. -/
theorem handle_events_done_of_quit :
    ∀ (l : List (SDL_Event × Bool)) (done : Int),
      (∃ p ∈ l, p.1.type = EventType.SDL_QUIT ∨
        (p.1.type = EventType.SDL_KEYDOWN ∧ p.1.sym = SDLK_ESCAPE)) →
      (handle_events l done).1 = 1 := by
  intro l
  induction l with
  | nil => intro done h; obtain ⟨p, hp, _⟩ := h; cases hp
  | cons q rest ih =>
    intro done h
    obtain ⟨e, skip⟩ := q
    obtain ⟨p, hp, hq⟩ := h
    rcases List.mem_cons.mp hp with rfl | hmem
    · simp only [handle_events, handle_event_done_of_quit done _ _ hq, handle_events_done_stays]
    · simp only [handle_events]
      exact ih _ ⟨p, hmem, hq⟩

theorem lookups_append (a b : List Call) : lookups (a ++ b) = lookups a ++ lookups b := by
  induction a with
  | nil => rfl
  | cons c cs ih => cases c <;> simp [lookups, ih]

/-- Every event of the batch is handed to `cfg_trigger_lookup`, once. -/
theorem lookups_handle_event (done : Int) (e : SDL_Event) (skip : Bool) :
    lookups (handle_event done e skip).2 = [e] := by
  rcases e with ⟨ty, w, sy, b⟩
  cases ty <;> cases skip <;> simp [handle_event, lookups]

theorem lookups_handle_events :
    ∀ (l : List (SDL_Event × Bool)) (done : Int),
      lookups (handle_events l done).2 = l.map Prod.fst := by
  intro l
  induction l with
  | nil => intro _; rfl
  | cons p rest ih =>
    intro done
    obtain ⟨e, skip⟩ := p
    simp only [handle_events, lookups_append, lookups_handle_event, ih, List.map_cons,
      List.singleton_append]

/-- The calls made for one event are none of the sends, the sleep, the overrun
warning, the clock readings and the two processing steps after the batch. -/
theorem handle_event_other (done : Int) (e : SDL_Event) (skip : Bool) :
    ∀ c ∈ (handle_event done e skip).2,
      c.isSend = false ∧ c.isSleep = false ∧ c.isOverrunWarning = false ∧
      c.isGettimeofday = false ∧ c ≠ Call.cfg_process_motion ∧
      c ≠ Call.cfg_config_activation := by
  rcases e with ⟨ty, w, sy, b⟩
  cases ty <;> cases skip <;>
    simp [handle_event, Call.isSend, Call.isSleep, Call.isOverrunWarning, Call.isGettimeofday]

theorem handle_events_other :
    ∀ (l : List (SDL_Event × Bool)) (done : Int), ∀ c ∈ (handle_events l done).2,
      c.isSend = false ∧ c.isSleep = false ∧ c.isOverrunWarning = false ∧
      c.isGettimeofday = false ∧ c ≠ Call.cfg_process_motion ∧
      c ≠ Call.cfg_config_activation := by
  intro l
  induction l with
  | nil => intro _ c hc; cases hc
  | cons p rest ih =>
    intro done c hc
    obtain ⟨e, skip⟩ := p
    simp only [handle_events, List.mem_append] at hc
    rcases hc with hc | hc
    · exact handle_event_other done e skip c hc
    · exact ih _ c hc

theorem countP_eq_zero_of_false {p : Call → Bool} {l : List Call}
    (h : ∀ c ∈ l, p c = false) : l.countP p = 0 := by
  rw [List.countP_eq_zero]
  intro c hc
  simp [h c hc]

theorem count_eq_zero_of_ne {a : Call} {l : List Call} (h : ∀ c ∈ l, c ≠ a) : l.count a = 0 := by
  rw [List.count_eq_zero]
  intro hmem
  exact h a hmem rfl

theorem send_countP (st : Settings) :
    (send st).countP Call.isSend = 1 ∧ (send st).countP Call.isSleep = 0 ∧
    (send st).countP Call.isOverrunWarning = 0 ∧ (send st).countP Call.isGettimeofday = 0 ∧
    (send st).count Call.cfg_process_motion = 0 ∧
    (send st).count Call.cfg_config_activation = 0 ∧ lookups (send st) = [] := by
  unfold send
  split
  · split <;> simp [Call.isSend, Call.isSleep, Call.isOverrunWarning, Call.isGettimeofday, lookups]
  · simp [Call.isSend, Call.isSleep, Call.isOverrunWarning, Call.isGettimeofday, lookups]

theorem sleep_or_warn_countP (refresh tts : Int) (tw : timespec) :
    (sleep_or_warn refresh tts tw).countP Call.isSend = 0 ∧
    (sleep_or_warn refresh tts tw).countP Call.isGettimeofday = 0 ∧
    (sleep_or_warn refresh tts tw).count Call.cfg_process_motion = 0 ∧
    (sleep_or_warn refresh tts tw).count Call.cfg_config_activation = 0 ∧
    lookups (sleep_or_warn refresh tts tw) = [] := by
  unfold sleep_or_warn
  split <;> simp [Call.isSend, Call.isGettimeofday, lookups]

/-- The calls of one pass, counted: one send, each of the two processing steps
once, two clock readings, every event of the batch looked up, and the sleeps
and warnings of the final step only. -/
theorem iteration_calls (st : Settings) (o : Observation) (v : LoopVars) :
    (iteration st o v).2.countP Call.isSend = 1 ∧
    (iteration st o v).2.count Call.cfg_process_motion = 1 ∧
    (iteration st o v).2.count Call.cfg_config_activation = 1 ∧
    (iteration st o v).2.countP Call.isGettimeofday = 2 ∧
    lookups (iteration st o v).2 = o.events.map Prod.fst ∧
    (iteration st o v).2.countP Call.isSleep
      = (sleep_or_warn st.refresh (time_to_sleep st.refresh o.t0 o.t1)
          (sleep_time (time_to_sleep st.refresh o.t0 o.t1))).countP Call.isSleep ∧
    (iteration st o v).2.countP Call.isOverrunWarning
      = (sleep_or_warn st.refresh (time_to_sleep st.refresh o.t0 o.t1)
          (sleep_time (time_to_sleep st.refresh o.t0 o.t1))).countP Call.isOverrunWarning ∧
    (iteration st o v).2.filter (fun c => c.isSleep || c.isOverrunWarning)
      = sleep_or_warn st.refresh (time_to_sleep st.refresh o.t0 o.t1)
          (sleep_time (time_to_sleep st.refresh o.t0 o.t1)) := by
  have he := handle_events_other o.events v.done
  have h1 : (handle_events o.events v.done).2.countP Call.isSend = 0 :=
    countP_eq_zero_of_false (fun c hc => (he c hc).1)
  have h2 : (handle_events o.events v.done).2.countP Call.isSleep = 0 :=
    countP_eq_zero_of_false (fun c hc => (he c hc).2.1)
  have h3 : (handle_events o.events v.done).2.countP Call.isOverrunWarning = 0 :=
    countP_eq_zero_of_false (fun c hc => (he c hc).2.2.1)
  have h4 : (handle_events o.events v.done).2.countP Call.isGettimeofday = 0 :=
    countP_eq_zero_of_false (fun c hc => (he c hc).2.2.2.1)
  have h5 : (handle_events o.events v.done).2.count Call.cfg_process_motion = 0 :=
    count_eq_zero_of_ne (fun c hc => (he c hc).2.2.2.2.1)
  have h6 : (handle_events o.events v.done).2.count Call.cfg_config_activation = 0 :=
    count_eq_zero_of_ne (fun c hc => (he c hc).2.2.2.2.2)
  have h7 : (handle_events o.events v.done).2.filter (fun c => c.isSleep || c.isOverrunWarning)
      = [] := by
    rw [List.filter_eq_nil_iff]
    intro c hc
    simp [(he c hc).2.1, (he c hc).2.2.1]
  obtain ⟨s1, s2, s3, s4, s5, s6, s7⟩ := send_countP st
  have s8 : (send st).filter (fun c => c.isSleep || c.isOverrunWarning) = [] := by
    rw [List.filter_eq_nil_iff]
    intro c hc
    have e1 : c.isSleep = false := by
      by_contra hne
      have : 0 < (send st).countP Call.isSleep :=
        List.countP_pos_iff.mpr ⟨c, hc, by simpa using hne⟩
      omega
    have e2 : c.isOverrunWarning = false := by
      by_contra hne
      have : 0 < (send st).countP Call.isOverrunWarning :=
        List.countP_pos_iff.mpr ⟨c, hc, by simpa using hne⟩
      omega
    simp [e1, e2]
  obtain ⟨w1, w2, w3, w4, w5⟩ := sleep_or_warn_countP st.refresh
    (time_to_sleep st.refresh o.t0 o.t1) (sleep_time (time_to_sleep st.refresh o.t0 o.t1))
  have w6 : (sleep_or_warn st.refresh (time_to_sleep st.refresh o.t0 o.t1)
        (sleep_time (time_to_sleep st.refresh o.t0 o.t1))).filter
        (fun c => c.isSleep || c.isOverrunWarning)
      = sleep_or_warn st.refresh (time_to_sleep st.refresh o.t0 o.t1)
        (sleep_time (time_to_sleep st.refresh o.t0 o.t1)) := by
    unfold sleep_or_warn
    split <;> simp [Call.isSleep, Call.isOverrunWarning]
  refine ⟨?_, ?_, ?_, ?_, ?_, ?_, ?_, ?_⟩
  · simp only [iteration, List.countP_append, h1, s1, w1]
    split <;> simp [Call.isSend]
  · simp only [iteration, List.count_append, h5, s5, w3]
    split <;> simp
  · simp only [iteration, List.count_append, h6, s6, w4]
    split <;> simp
  · simp only [iteration, List.countP_append, h4, s4, w2]
    split <;> simp [Call.isGettimeofday]
  · simp only [iteration, lookups_append, lookups_handle_events, s7, w5]
    split <;> simp [lookups]
  · simp only [iteration, List.countP_append, h2, s2]
    split <;> simp [Call.isSleep]
  · simp only [iteration, List.countP_append, h3, s3]
    split <;> simp [Call.isOverrunWarning]
  · simp only [iteration, List.filter_append, h7, s8, w6]
    split <;> simp [Call.isSleep, Call.isOverrunWarning]

/-- A pass that starts with `done = 0` and sets `done` is the last one. -/
theorem dispatch_loop_last_pass (st : Settings) (o : Observation) (rest : List Observation)
    (v : LoopVars) (hv : v.done = 0) (hd : (iteration st o v).1.done = 1) :
    dispatch_loop st (o :: rest) v = some ((iteration st o v).1, (iteration st o v).2, rest) := by
  have h1 : (iteration st o v).1.done ≠ 0 := by rw [hd]; decide
  have h2 : dispatch_loop st rest (iteration st o v).1 = some ((iteration st o v).1, [], rest) := by
    cases rest with
    | nil => rw [dispatch_loop, if_pos h1]
    | cons o2 r2 => rw [dispatch_loop, if_pos h1]
  have h0 : ¬ (v.done ≠ 0) := by simp [hv]
  rw [dispatch_loop, if_neg h0]
  simp only [h2, List.append_nil]

/-- The conversion to `int` leaves a value within the range of `int` as it is. -/
theorem toInt32_of_range {z : Int} (h1 : -2147483648 ≤ z) (h2 : z < 2147483648) :
    toInt32 z = z := by
  unfold toInt32; omega

/-- The request handed to `nanosleep` is the remaining time exactly when that
time is below one second. -/
theorem sleep_time_exact_iff (tts : Int) (h : 0 < tts) :
    ((sleep_time tts).tv_sec * 1000000000 + (sleep_time tts).tv_nsec = tts * 1000 ∧
      0 ≤ (sleep_time tts).tv_nsec ∧ (sleep_time tts).tv_nsec < 1000000000)
    ↔ tts < 1000000 := by
  have hq : Int.tdiv tts 1000000 = tts / 1000000 := Int.tdiv_eq_ediv (by omega) (by omega)
  simp only [sleep_time, hq]
  constructor
  · intro h1; omega
  · intro h1; omega

/-- The calls of `cleanup` are neither sends nor clock readings. -/
theorem cleanup_countP (st : Settings) :
    (cleanup st).countP Call.isSend = 0 ∧ (cleanup st).countP Call.isGettimeofday = 0 := by
  unfold cleanup
  split
  · split <;> simp [Call.isSend, Call.isGettimeofday]
  · simp [Call.isSend, Call.isGettimeofday]

theorem sixaxis_init_countP (l : List Nat) :
    (l.map Call.sixaxis_init).countP Call.isSend = 0 ∧
    (l.map Call.sixaxis_init).countP Call.isGettimeofday = 0 := by
  induction l with
  | nil => simp
  | cons a rest ih => simp [Call.isSend, Call.isGettimeofday, ih.1, ih.2]

/-- The processing call of one event. -/
theorem handle_event_processes (done : Int) (e : SDL_Event) (skip : Bool) :
    (e.type ≠ EventType.SDL_MOUSEMOTION → skip = false →
        Call.cfg_process_event e ∈ (handle_event done e skip).2) ∧
    (e.type = EventType.SDL_MOUSEMOTION →
        Call.cfg_process_motion_event e ∈ (handle_event done e skip).2) := by
  rcases e with ⟨ty, w, sy, b⟩
  cases ty <;> cases skip <;> simp [handle_event]

/-- Every event of the batch is processed, wherever it stands in the batch. -/
theorem handle_events_processes :
    ∀ (l : List (SDL_Event × Bool)) (done : Int), ∀ p ∈ l,
      (p.1.type ≠ EventType.SDL_MOUSEMOTION → p.2 = false →
          Call.cfg_process_event p.1 ∈ (handle_events l done).2) ∧
      (p.1.type = EventType.SDL_MOUSEMOTION →
          Call.cfg_process_motion_event p.1 ∈ (handle_events l done).2) := by
  intro l
  induction l with
  | nil => intro _ p hp; cases hp
  | cons q rest ih =>
    intro done p hp
    obtain ⟨e, skip⟩ := q
    simp only [handle_events, List.mem_append]
    rcases List.mem_cons.mp hp with rfl | hmem
    · have := handle_event_processes done e skip
      exact ⟨fun h1 h2 => Or.inl (this.1 h1 h2), fun h1 => Or.inl (this.2 h1)⟩
    · have := ih (handle_event done e skip).1 p hmem
      exact ⟨fun h1 h2 => Or.inr (this.1 h1 h2), fun h1 => Or.inr (this.2 h1)⟩

/-- For a positive number of milliseconds within range, `--refresh` sets
`refresh` to that number times 1000 and `postpone_count` to the quotient of
`3 * DEFAULT_REFRESH_PERIOD` by it. -/
theorem refresh_option_positive (D : Int) (p v : String) (hD0 : 0 ≤ D)
    (hD : 3 * D < 2147483648) (h0 : 0 < atoi v) (hm : atoi v * 1000 < 2147483648) :
    ∃ st, parse D [p, "--refresh", v] = Except.ok st ∧ st.refresh = atoi v * 1000 ∧
      st.postpone_count = (3 * D) / (atoi v * 1000) ∧ st.values = [2] := by
  have e1 : toInt32 (atoi v * 1000) = atoi v * 1000 := toInt32_of_range (by omega) hm
  have e2 : toInt32 (3 * D) = 3 * D := toInt32_of_range (by omega) hD
  have e3 : Int.tdiv (3 * D) (atoi v * 1000) = (3 * D) / (atoi v * 1000) :=
    Int.tdiv_eq_ediv (by omega) (by omega)
  have e4 : 0 ≤ (3 * D) / (atoi v * 1000) := Int.ediv_nonneg (by omega) (by omega)
  have e5 : (3 * D) / (atoi v * 1000) ≤ 3 * D := Int.ediv_le_self _ (by omega)
  have e6 : toInt32 ((3 * D) / (atoi v * 1000)) = (3 * D) / (atoi v * 1000) :=
    toInt32_of_range (by omega) (by omega)
  have e7 : ¬ (atoi v * 1000 = 0) := by omega
  refine ⟨{ Settings.initial D with
              refresh := atoi v * 1000
              postpone_count := (3 * D) / (atoi v * 1000)
              values := [2] }, ?_, rfl, rfl, rfl⟩
  simp [parse, parse_from, e1, e2, e3, e6, e7, Settings.initial]

/-- The index of a value read as `argv[++i]` is never above `argc`: the read
stays within `argv[0..argc]`, whose last entry is the null pointer. -/
theorem parse_from_values_le (D : Int) (argv : List String) :
    ∀ (fuel i : Nat) (st st2 : Settings), parse_from D argv fuel i st = Except.ok st2 →
      (∀ j ∈ st.values, j ≤ argv.length) → ∀ j ∈ st2.values, j ≤ argv.length := by
  intro fuel
  induction fuel with
  | zero =>
    intro i st st2 h hv
    rw [parse_from] at h
    simp only [Except.ok.injEq] at h
    subst h; exact hv
  | succ n ih =>
    intro i st st2 h hv
    rw [parse_from] at h
    by_cases hlt : i < argv.length
    · have hv2 : ∀ j ∈ st.values ++ [i + 1], j ≤ argv.length := by
        intro j hj
        simp only [List.mem_append, List.mem_singleton] at hj
        rcases hj with hj | rfl
        · exact hv j hj
        · omega
      rw [if_pos hlt] at h
      cases hget : argv[i]? with
      | none =>
        rw [hget] at h
        simp only [Except.ok.injEq] at h
        subst h; exact hv
      | some a =>
        rw [hget] at h
        change (if a = "--nograb" then _ else _) = _ at h
        by_cases c : a = "--nograb"
        · rw [if_pos c] at h
          exact ih _ _ _ h hv
        rw [if_neg c] at h
        clear c
        by_cases c : a = "--config" ∧ i < argv.length
        · rw [if_pos c] at h
          exact ih _ _ _ h hv2
        rw [if_neg c] at h
        clear c
        by_cases c : a = "--port" ∧ i < argv.length
        · rw [if_pos c] at h
          exact ih _ _ _ h hv2
        rw [if_neg c] at h
        clear c
        by_cases c : a = "--status"
        · rw [if_pos c] at h
          exact ih _ _ _ h hv
        rw [if_neg c] at h
        clear c
        by_cases c : a = "--refresh"
        · rw [if_pos c] at h
          cases hval : argv[i + 1]? with
          | none => rw [hval] at h; exact absurd h (by simp)
          | some v =>
            rw [hval] at h
            dsimp only at h
            by_cases c2 : toInt32 (atoi v * 1000) = 0
            · rw [if_pos c2] at h; exact absurd h (by simp)
            · rw [if_neg c2] at h
              exact ih _ _ _ h hv2
        rw [if_neg c] at h
        clear c
        by_cases c : a = "--precision"
        · rw [if_pos c] at h
          cases hval : argv[i + 1]? with
          | none => rw [hval] at h; exact absurd h (by simp)
          | some v =>
            rw [hval] at h
            dsimp only at h
            by_cases c2 : atoi v < 0 ∨ 32 ≤ atoi v
            · rw [if_pos c2] at h; exact absurd h (by simp)
            · rw [if_neg c2] at h
              exact ih _ _ _ h hv2
        rw [if_neg c] at h
        clear c
        by_cases c : a = "--serial"
        · rw [if_pos c] at h
          exact ih _ _ _ h hv
        rw [if_neg c] at h
        clear c
        by_cases c : a = "--subpos"
        · rw [if_pos c] at h
          exact ih _ _ _ h hv
        rw [if_neg c] at h
        clear c
        by_cases c : a = "--force-updates"
        · rw [if_pos c] at h
          exact ih _ _ _ h hv
        rw [if_neg c] at h
        clear c
        by_cases c : a = "--check"
        · rw [if_pos c] at h
          exact ih _ _ _ h hv
        rw [if_neg c] at h
        clear c
        by_cases c : a = "--joystick"
        · rw [if_pos c] at h
          exact ih _ _ _ h hv
        rw [if_neg c] at h
        clear c
        by_cases c : a = "--360pad"
        · rw [if_pos c] at h
          exact ih _ _ _ h hv
        rw [if_neg c] at h
        clear c
        by_cases c : a = "--Sixaxis"
        · rw [if_pos c] at h
          exact ih _ _ _ h hv
        rw [if_neg c] at h
        clear c
        by_cases c : a = "--PS2pad"
        · rw [if_pos c] at h
          exact ih _ _ _ h hv
        rw [if_neg c] at h
        clear c
        by_cases c : a = "--GPP"
        · rw [if_pos c] at h
          exact ih _ _ _ h hv
        rw [if_neg c] at h
        clear c
        by_cases c : a = "--keygen" ∧ i < argv.length
        · rw [if_pos c] at h
          exact ih _ _ _ h hv2
        rw [if_neg c] at h
        clear c
        exact ih _ _ _ h hv
    · rw [if_neg hlt] at h
      simp only [Except.ok.injEq] at h
      subst h; exact hv

/-- Every value read by the argument loop has an index of at most `argc`. -/
theorem parse_values_le (D : Int) (argv : List String) (st : Settings)
    (h : parse D argv = Except.ok st) : ∀ j ∈ st.values, j ≤ argv.length :=
  parse_from_values_le D argv _ _ _ _ h (by simp [Settings.initial])

/-! ## Claims about `timer_read_callback` -/

/-- C1 (counterexample): with period 1000, deadline 5000 and a fire at 6000 the
callback stores the deadline 6000, which is not later than `now`; it is not
`5000 + k * 1000` for any `k` with `5000 + k * 1000 > 6000`. -/
theorem catch_up_stops_at_now :
    ∃ s2, timer_read_callback 3 sample 0 6000 = some (s2, 1) ∧
      deadline s2 0 = some 6000 ∧
      ∀ k, 6000 < 5000 + k * 1000 → deadline s2 0 ≠ some (5000 + k * 1000) := by
  refine ⟨⟨[⟨1000, 0, 6000, 10, 1000, 1⟩], false, [Msg.off_by 10 1000 100]⟩,
    by decide, by decide, ?_⟩
  intro k hk h
  simp only [deadline, List.getElem?_cons_zero, Option.map_some', Option.some.injEq] at h
  omega

/-- C1 (amended): for a period `usec > 0` and a fire at `now ≥ next` without
64-bit overflow, the callback returns 1 and stores the deadline
`next + k * usec`, where `k` is the smallest positive integer such that
`next + k * usec ≥ now`. -/
theorem catch_up_least_multiple (fuel : Nat) (s : TestState) (user now : Nat) (t : Timer)
    (ht : s.timers[user]? = some t) (hu : 0 < t.usec) (hle : t.next ≤ now)
    (hdiff : now - t.next < 9223372036854775808)
    (hnow : now + t.usec < 18446744073709551616)
    (hf : (now - t.next) / t.usec < fuel) :
    ∃ s2 k, timer_read_callback fuel s user now = some (s2, 1) ∧
      deadline s2 user = some (t.next + k * t.usec) ∧
      0 < k ∧ now ≤ t.next + k * t.usec ∧
      ∀ j, 0 < j → now ≤ t.next + j * t.usec → k ≤ j := by
  obtain ⟨k, out, hk0, hk1, hk2, _, _, hcb⟩ := timer_read_callback_on_time ht hu hle hdiff hnow hf
  refine ⟨_, k, hcb, ?_, hk0, hk1, least_of_pred_lt hk2⟩
  simp [deadline, List.getElem?_set_self (getElem?_lt_length ht)]

/-- C1 (witness): period 1000, deadline 5000, fire at 6500. -/
theorem catch_up_least_multiple_witness :
    ∃ s2 k, timer_read_callback 3 sample 0 6500 = some (s2, 1) ∧
      deadline s2 0 = some (5000 + k * 1000) ∧
      0 < k ∧ 6500 ≤ 5000 + k * 1000 ∧
      ∀ j, 0 < j → 6500 ≤ 5000 + j * 1000 → k ≤ j :=
  catch_up_least_multiple 3 sample 0 6500 ⟨1000, 0, 5000, 10, 0, 0⟩
    (by decide) (by decide) (by decide) (by decide) (by decide) (by decide)

/-- C2 (counterexample): with period 1000, deadline 5000 and a fire at 6500 (not
an early fire: the callback returns 1) the new deadline is 7000, two periods
after the previous one. -/
theorem deadline_step_two_periods :
    ∃ s2, timer_read_callback 3 sample 0 6500 = some (s2, 1) ∧
      deadline sample 0 = some 5000 ∧ deadline s2 0 = some 7000 ∧ 7000 - 5000 ≠ 1000 := by
  refine ⟨⟨[⟨1000, 0, 7000, 10, 1500, 1⟩], false, [Msg.off_by 10 1000 150]⟩,
    by decide, by decide, by decide, by decide⟩

/-- C2 (amended): for a period `P = usec > 0` and a fire that is not early
(`now ≥ next`, no 64-bit overflow), the deadline computed by the fire exceeds the
previous one by a positive multiple of `P`, and by exactly `P` if and only if
the delay `now - next` is at most `P`. -/
theorem deadline_step_eq_period_iff (fuel : Nat) (s : TestState) (user now : Nat) (t : Timer)
    (ht : s.timers[user]? = some t) (hu : 0 < t.usec) (hle : t.next ≤ now)
    (hdiff : now - t.next < 9223372036854775808)
    (hnow : now + t.usec < 18446744073709551616)
    (hf : (now - t.next) / t.usec < fuel) :
    ∃ s2 d k, timer_read_callback fuel s user now = some (s2, 1) ∧
      deadline s2 user = some d ∧ 0 < k ∧ d - t.next = k * t.usec ∧ t.next < d ∧
      (d - t.next = t.usec ↔ now - t.next ≤ t.usec) := by
  obtain ⟨k, out, hk0, hk1, hk2, _, _, hcb⟩ := timer_read_callback_on_time ht hu hle hdiff hnow hf
  have hpos : 0 < k * t.usec := Nat.mul_pos hk0 hu
  refine ⟨_, t.next + k * t.usec, k, hcb, ?_, hk0, by omega, by omega, ?_⟩
  · simp [deadline, List.getElem?_set_self (getElem?_lt_length ht)]
  · constructor
    · intro h
      have : k * t.usec = t.usec := by omega
      omega
    · intro h
      by_cases hk : 1 < k
      · have h2 := hk2 hk
        have : 1 * t.usec ≤ (k - 1) * t.usec := Nat.mul_le_mul_right _ (by omega)
        omega
      · have : k = 1 := by omega
        subst this; omega

/-- C2 (witness): period 1000, deadline 5000, fire at 5400. -/
theorem deadline_step_eq_period_iff_witness :
    ∃ s2 d k, timer_read_callback 3 sample 0 5400 = some (s2, 1) ∧
      deadline s2 0 = some d ∧ 0 < k ∧ d - 5000 = k * 1000 ∧ 5000 < d ∧
      (d - 5000 = 1000 ↔ 5400 - 5000 ≤ 1000) :=
  deadline_step_eq_period_iff 3 sample 0 5400 ⟨1000, 0, 5000, 10, 0, 0⟩
    (by decide) (by decide) (by decide) (by decide) (by decide) (by decide)

/-- C3: for a timer with period `usec > 0` and fire times without 64-bit
overflow, after any sequence `l` of fires the stored deadline is the initial
one plus a multiple `m` of the period; a further fire at `now` either is early
(`now` before the deadline: the callback returns -1 and the deadline is
unchanged) or replaces the deadline by a strictly larger one that differs from
it by a positive multiple of the period.  So the deadline never decreases. -/
theorem deadline_invariant (fuel user : Nat) (s : TestState) (t : Timer) (l : List Nat)
    (now : Nat) (ht : s.timers[user]? = some t) (hu : 0 < t.usec)
    (hnext : t.next < 9223372036854775808)
    (hall : ∀ x ∈ l ++ [now], x + t.usec < 9223372036854775808 ∧ x / t.usec < fuel) :
    ∃ s1 s2 r m, fires fuel user s l = some s1 ∧
      timer_read_callback fuel s1 user now = some (s2, r) ∧
      deadline s1 user = some (t.next + m * t.usec) ∧
      ((now < t.next + m * t.usec ∧ r = -1 ∧ deadline s2 user = some (t.next + m * t.usec)) ∨
       (t.next + m * t.usec ≤ now ∧ r = 1 ∧
          ∃ k, 0 < k ∧ deadline s2 user = some (t.next + m * t.usec + k * t.usec) ∧
            t.next + m * t.usec < t.next + m * t.usec + k * t.usec)) := by
  have h0 : OnGrid user t.usec t.next s := ⟨t, 0, ht, rfl, by simp, hnext⟩
  obtain ⟨s1, hs1, hg1⟩ := fires_keep_grid hu l s h0
    (fun x hx => hall x (List.mem_append_left _ hx))
  obtain ⟨hn1, hn2⟩ := hall now (List.mem_append_right _ (List.mem_singleton_self _))
  obtain ⟨s2, r, d, hcb, _, hd, hcase⟩ := fire_keeps_grid hg1 hu hn1 hn2
  obtain ⟨t1, m, ht1, _, ht1n, _⟩ := hg1
  have hdm : d = t.next + m * t.usec := by
    simp only [deadline, ht1, Option.map_some', Option.some.injEq] at hd
    omega
  subst hdm
  refine ⟨s1, s2, r, m, hs1, hcb, hd, ?_⟩
  rcases hcase with ⟨h1, h2, _, h4⟩ | ⟨h1, h2, _, k, hk, h5, h6⟩
  · exact Or.inl ⟨h1, h2, h4⟩
  · exact Or.inr ⟨h1, h2, k, hk, h5, h6⟩

/-- C3 (witness): the fourth timer of the table (period 4000, deadline 0), with
fires at 100, 3000 (early), 4100 and 13000, then a fire at 17000. -/
theorem deadline_invariant_witness :
    ∃ s1 s2 r m, fires 10 3 ⟨timers, false, []⟩ [100, 3000, 4100, 13000] = some s1 ∧
      timer_read_callback 10 s1 3 17000 = some (s2, r) ∧
      deadline s1 3 = some (0 + m * 4000) ∧
      ((17000 < 0 + m * 4000 ∧ r = -1 ∧ deadline s2 3 = some (0 + m * 4000)) ∨
       (0 + m * 4000 ≤ 17000 ∧ r = 1 ∧
          ∃ k, 0 < k ∧ deadline s2 3 = some (0 + m * 4000 + k * 4000) ∧
            0 + m * 4000 < 0 + m * 4000 + k * 4000)) :=
  deadline_invariant 10 3 ⟨timers, false, []⟩ ⟨4000, -1, 0, 10, 0, 0⟩ [100, 3000, 4100, 13000]
    17000 (by decide) (by decide) (by decide) (by decide)

/-- C4: for timestamps below `2^63`, the callback reports the early-fire anomaly
exactly when `now < next`.  In that case it raises the done flag, returns -1 and
leaves the table (deadline, sum, count) as it is.  Otherwise (with a positive
period and no wrap-around of the deadline) `process(user, now - next)` is
applied once to the entry: `count` grows by 1 and `sum` by the jitter, as
`unsigned int`; only the deadline of that entry is changed afterwards, nothing
is reported as an anomaly, the done flag is untouched and the call returns 1. -/
theorem early_fire_handling (fuel : Nat) (s : TestState) (user now : Nat) (t : Timer)
    (ht : s.timers[user]? = some t)
    (hnext : t.next < 9223372036854775808) (hnow : now < 9223372036854775808) :
    (now < t.next →
      timer_read_callback fuel s user now
        = some ({ timers := s.timers, done := true,
                  stderr := s.stderr ++ [Msg.fired_too_early] }, -1)) ∧
    (t.next ≤ now → 0 < t.usec → now + t.usec < 18446744073709551616 →
      (now - t.next) / t.usec < fuel →
      ∃ d out, Msg.fired_too_early ∉ out ∧
        process s user ((now - t.next) % 4294967296)
          = some { timers := s.timers.set user
                     { t with sum := (t.sum + (now - t.next)) % 4294967296,
                              count := (t.count + 1) % 4294967296 },
                   done := s.done, stderr := s.stderr ++ out } ∧
        timer_read_callback fuel s user now
          = some ({ timers := s.timers.set user
                      { t with sum := (t.sum + (now - t.next)) % 4294967296,
                               count := (t.count + 1) % 4294967296,
                               next := d },
                    done := s.done, stderr := s.stderr ++ out }, 1)) := by
  constructor
  · intro hlt
    exact timer_read_callback_too_early fuel ht hlt (by omega)
  · intro hle hu hwrap hf
    obtain ⟨k, out, _, _, _, hout, hp, hcb⟩ :=
      timer_read_callback_on_time ht hu hle (by omega) hwrap hf
    exact ⟨_, out, hout, hp, hcb⟩

/-- C4 (witness): the timer with period 1000 and deadline 5000, fired early at
4000 and on time at 6500. -/
theorem early_fire_handling_witness :
    timer_read_callback 3 sample 0 4000
      = some ({ timers := sample.timers, done := true,
                stderr := sample.stderr ++ [Msg.fired_too_early] }, -1) ∧
    ∃ d out, Msg.fired_too_early ∉ out ∧
      process sample 0 ((6500 - 5000) % 4294967296)
        = some { timers := sample.timers.set 0 ⟨1000, 0, 5000, 10, (0 + (6500 - 5000)) % 4294967296,
                   (0 + 1) % 4294967296⟩,
                 done := sample.done, stderr := sample.stderr ++ out } ∧
      timer_read_callback 3 sample 0 6500
        = some ({ timers := sample.timers.set 0 ⟨1000, 0, d, 10, (0 + (6500 - 5000)) % 4294967296,
                    (0 + 1) % 4294967296⟩,
                  done := sample.done, stderr := sample.stderr ++ out }, 1) :=
  ⟨(early_fire_handling 3 sample 0 4000 ⟨1000, 0, 5000, 10, 0, 0⟩
      (by decide) (by decide) (by decide)).1 (by decide),
   (early_fire_handling 3 sample 0 6500 ⟨1000, 0, 5000, 10, 0, 0⟩
      (by decide) (by decide) (by decide)).2 (by decide) (by decide) (by decide) (by decide)⟩

/-! ## Claims about `main` -/

/-- C5 (failing input): with `--refresh 2000` the period is 2000000 µs; a pass
that takes 2000 µs leaves 1998000 µs, and the request handed to `nanosleep` is
1 s and 1997999000 ns, which is not 1998000 µs and has a nanosecond field above
999999999. -/
theorem sleep_request_beyond_one_second :
    ∃ calls, main quiet ["emuclient", "--refresh", "2000"] = Outcome.exit 0 calls ∧
      time_to_sleep 2000000 ⟨100, 0⟩ ⟨100, 2000⟩ = 1998000 ∧
      calls.filter Call.isSleep = [Call.nanosleep ⟨1, 1997999000⟩] ∧
      (1 : Int) * 1000000000 + 1997999000 ≠ 1998000 * 1000 ∧
      ¬ ((1997999000 : Int) < 1000000000) := by
  refine ⟨_, rfl, by decide, by decide, by decide, by decide⟩

/-- C6 (counterexample): with a period of 10000 µs and a pass that starts at
100 s and ends at 3100 s, the elapsed time (3000000000 µs) exceeds the period,
but `refresh - elapsed` does not fit the `int` variable `time_to_sleep`, which
becomes 1294977296: the pass requests a sleep and emits no overrun warning. -/
theorem overrun_unreported_after_int_wrap :
    (Settings.initial 10000).refresh < elapsed ⟨100, 0⟩ ⟨3100, 0⟩ ∧
    time_to_sleep 10000 ⟨100, 0⟩ ⟨3100, 0⟩ = 1294977296 ∧
    (iteration (Settings.initial 10000) ⟨⟨100, 0⟩, [], ⟨3100, 0⟩⟩ ⟨0, 0, ⟨0, 0⟩⟩).2.countP
      Call.isOverrunWarning = 0 ∧
    (iteration (Settings.initial 10000) ⟨⟨100, 0⟩, [], ⟨3100, 0⟩⟩ ⟨0, 0, ⟨0, 0⟩⟩).2.countP
      Call.isSleep = 1 := by
  refine ⟨by decide, by decide, by decide, by decide⟩

/-- C6 (amended): in every pass of the dispatch loop, whatever the loop
variables left by earlier passes, an elapsed time that exceeds the period by at
most 2^31 µs gives exactly one overrun warning and no sleep, and an elapsed
time below the period by less than 2^31 µs gives exactly one sleep and no
warning (so that `refresh - elapsed` fits the `int` variable `time_to_sleep`);
the sleep or warning of a pass is the same for any two passes that agree on
`refresh`, `t0` and `t1`. -/
theorem overrun_handling (st : Settings) (o : Observation) (v : LoopVars) :
    (st.refresh < elapsed o.t0 o.t1 → elapsed o.t0 o.t1 - st.refresh ≤ 2147483648 →
      (iteration st o v).2.countP Call.isOverrunWarning = 1 ∧
      (iteration st o v).2.countP Call.isSleep = 0) ∧
    (elapsed o.t0 o.t1 < st.refresh → st.refresh - elapsed o.t0 o.t1 < 2147483648 →
      (iteration st o v).2.countP Call.isOverrunWarning = 0 ∧
      (iteration st o v).2.countP Call.isSleep = 1) ∧
    (∀ (st2 : Settings) (o2 : Observation) (v2 : LoopVars),
      st2.refresh = st.refresh → o2.t0 = o.t0 → o2.t1 = o.t1 →
      (iteration st2 o2 v2).2.filter (fun c => c.isSleep || c.isOverrunWarning)
        = (iteration st o v).2.filter (fun c => c.isSleep || c.isOverrunWarning)) := by
  obtain ⟨_, _, _, _, _, hs, hw, hf⟩ := iteration_calls st o v
  refine ⟨?_, ?_, ?_⟩
  · intro h1 h2
    have htts : time_to_sleep st.refresh o.t0 o.t1 = st.refresh - elapsed o.t0 o.t1 := by
      unfold elapsed at h1 h2 ⊢
      unfold time_to_sleep
      exact toInt32_of_range (by omega) (by omega)
    have hneg : ¬ (time_to_sleep st.refresh o.t0 o.t1 > 0) := by omega
    rw [hs, hw]
    simp [sleep_or_warn, hneg, Call.isSleep, Call.isOverrunWarning]
  · intro h1 h2
    have htts : time_to_sleep st.refresh o.t0 o.t1 = st.refresh - elapsed o.t0 o.t1 := by
      unfold elapsed at h1 h2 ⊢
      unfold time_to_sleep
      exact toInt32_of_range (by omega) (by omega)
    have hpos : time_to_sleep st.refresh o.t0 o.t1 > 0 := by omega
    rw [hs, hw]
    simp [sleep_or_warn, hpos, Call.isSleep, Call.isOverrunWarning]
  · intro st2 o2 v2 e1 e2 e3
    obtain ⟨_, _, _, _, _, _, _, hf2⟩ := iteration_calls st2 o2 v2
    rw [hf, hf2, e1, e2, e3]

/-- C6 (witness): period 10000 µs; a pass of 12000 µs and a pass of 2000 µs. -/
theorem overrun_handling_witness :
    ((iteration (Settings.initial 10000) ⟨⟨100, 0⟩, [], ⟨100, 12000⟩⟩ ⟨0, 0, ⟨0, 0⟩⟩).2.countP
        Call.isOverrunWarning = 1 ∧
      (iteration (Settings.initial 10000) ⟨⟨100, 0⟩, [], ⟨100, 12000⟩⟩ ⟨0, 0, ⟨0, 0⟩⟩).2.countP
        Call.isSleep = 0) ∧
    ((iteration (Settings.initial 10000) ⟨⟨100, 0⟩, [], ⟨100, 2000⟩⟩ ⟨0, 0, ⟨0, 0⟩⟩).2.countP
        Call.isOverrunWarning = 0 ∧
      (iteration (Settings.initial 10000) ⟨⟨100, 0⟩, [], ⟨100, 2000⟩⟩ ⟨0, 0, ⟨0, 0⟩⟩).2.countP
        Call.isSleep = 1) :=
  ⟨(overrun_handling (Settings.initial 10000) ⟨⟨100, 0⟩, [], ⟨100, 12000⟩⟩ ⟨0, 0, ⟨0, 0⟩⟩).1
      (by decide) (by decide),
   (overrun_handling (Settings.initial 10000) ⟨⟨100, 0⟩, [], ⟨100, 2000⟩⟩ ⟨0, 0, ⟨0, 0⟩⟩).2.1
      (by decide) (by decide)⟩

/-- C7: when a pass of the dispatch loop starts (`done` is 0) and some event of
the captured batch sets `done` (an `SDL_QUIT` event or a key-down of the escape
key), the pass is carried out in full: every event of the batch, also the later
ones, goes through the lookups and, unless it is skipped by the calibration, the
event processing; the two processing steps after the batch run once each; the
transport send is invoked exactly once.  The loop then ends: the calls made are
those of this single pass and the remaining observations are left unused. -/
theorem boundary_aligned_termination (st : Settings) (o : Observation)
    (rest : List Observation) (v : LoopVars) (hv : v.done = 0)
    (hq : ∃ p ∈ o.events, p.1.type = EventType.SDL_QUIT ∨
      (p.1.type = EventType.SDL_KEYDOWN ∧ p.1.sym = SDLK_ESCAPE)) :
    ∃ v2 calls, dispatch_loop st (o :: rest) v = some (v2, calls, rest) ∧
      v2.done = 1 ∧ calls = (iteration st o v).2 ∧
      lookups calls = o.events.map Prod.fst ∧
      (∀ p ∈ o.events, (p.1.type ≠ EventType.SDL_MOUSEMOTION → p.2 = false →
          Call.cfg_process_event p.1 ∈ calls) ∧
        (p.1.type = EventType.SDL_MOUSEMOTION → Call.cfg_process_motion_event p.1 ∈ calls)) ∧
      calls.count Call.cfg_process_motion = 1 ∧
      calls.count Call.cfg_config_activation = 1 ∧
      calls.countP Call.isSend = 1 ∧
      calls.countP Call.isGettimeofday = 2 := by
  have hd : (iteration st o v).1.done = 1 := by
    simp only [iteration]
    exact handle_events_done_of_quit o.events v.done hq
  obtain ⟨c1, c2, c3, c4, c5, _, _, _⟩ := iteration_calls st o v
  refine ⟨_, _, dispatch_loop_last_pass st o rest v hv hd, hd, rfl, c5, ?_, c2, c3, c1, c4⟩
  intro p hp
  have hmem := handle_events_processes o.events v.done p hp
  constructor
  · intro h1 h2
    have := hmem.1 h1 h2
    simp only [iteration, List.mem_append]
    exact Or.inl (Or.inl (Or.inl (Or.inl (Or.inr this))))
  · intro h1
    have := hmem.2 h1
    simp only [iteration, List.mem_append]
    exact Or.inl (Or.inl (Or.inl (Or.inl (Or.inr this))))

/-- C7 (witness): a batch of an `SDL_QUIT` event followed by a key-up event. -/
theorem boundary_aligned_termination_witness :
    ∃ v2 calls, dispatch_loop (Settings.initial 10000)
        (⟨⟨100, 0⟩, [(⟨EventType.SDL_QUIT, 0, 0, 0⟩, false), (⟨EventType.SDL_KEYUP, 0, 97, 0⟩, false)],
          ⟨100, 2000⟩⟩ :: [⟨⟨101, 0⟩, [], ⟨101, 2000⟩⟩]) ⟨0, 0, ⟨0, 0⟩⟩
        = some (v2, calls, [⟨⟨101, 0⟩, [], ⟨101, 2000⟩⟩]) ∧
      v2.done = 1 ∧
      Call.cfg_process_event ⟨EventType.SDL_KEYUP, 0, 97, 0⟩ ∈ calls ∧
      calls.countP Call.isSend = 1 := by
  obtain ⟨v2, calls, h1, h2, _, _, h5, _, _, h8, _⟩ :=
    boundary_aligned_termination (Settings.initial 10000)
      ⟨⟨100, 0⟩, [(⟨EventType.SDL_QUIT, 0, 0, 0⟩, false), (⟨EventType.SDL_KEYUP, 0, 97, 0⟩, false)],
        ⟨100, 2000⟩⟩ [⟨⟨101, 0⟩, [], ⟨101, 2000⟩⟩] ⟨0, 0, ⟨0, 0⟩⟩ (by decide)
      ⟨(⟨EventType.SDL_QUIT, 0, 0, 0⟩, false), by decide, Or.inl rfl⟩
  exact ⟨v2, calls, h1, h2,
    (h5 (⟨EventType.SDL_KEYUP, 0, 97, 0⟩, false) (by decide)).1 (by decide) rfl, h8⟩

/-- C8 (counterexample): the argument vector `emuclient --check` contains
`--check`, the capture subsystem initialises, and yet the dispatch loop runs a
pass and the transport send is invoked. -/
theorem check_without_config_runs_loop :
    "--check" ∈ ["emuclient", "--check"] ∧ quiet.sdl_initialize ≠ 0 ∧
    ∃ calls, main quiet ["emuclient", "--check"] = Outcome.exit 0 calls ∧
      calls.countP Call.isSend = 1 ∧ calls.countP Call.isGettimeofday = 2 := by
  refine ⟨by decide, by decide, _, rfl, by decide, by decide⟩

/-- C8 (amended): for every argument vector whose reading sets both `read` (an
option `--config`) and `check_config` (an option `--check`), and for which the
capture subsystem initialises, the program reads the configuration and exits
with status 0 before the dispatch loop: no pass is executed and no transport
send is invoked. -/
theorem validate_only (env : Env) (argv : List String) (st : Settings)
    (hp : parse env.DEFAULT_REFRESH_PERIOD argv = Except.ok st)
    (hr : st.read = 1) (hc : st.check_config ≠ 0) (hs : env.sdl_initialize ≠ 0) :
    ∃ calls, main env argv = Outcome.exit 0 calls ∧
      Call.read_config_file st.config_file ∈ calls ∧
      calls.countP Call.isSend = 0 ∧ calls.countP Call.isGettimeofday = 0 := by
  obtain ⟨k1, k2⟩ := cleanup_countP st
  obtain ⟨x1, x2⟩ := sixaxis_init_countP (List.range env.MAX_CONTROLLERS)
  have hm : main env argv = Outcome.exit 0
      ([Call.sched_setscheduler, Call.setlinebuf, Call.getpwuid, Call.setlocale] ++
        ((((if st.display = 1 then [Call.printf_max_axis_value st.max_axis_value] else []) ++
              [Call.initialize_macros] ++
              List.map Call.sixaxis_init (List.range env.MAX_CONTROLLERS) ++
              [Call.sdl_initialize] ++
              if ¬st.display = 0 then [Call.printf_sdl_initialized] else []) ++
            if ¬st.grab = 0 then [Call.usleep 1000000, Call.sdl_grab] else []) ++
          [Call.read_config_file st.config_file] ++ cleanup st)) := by
    simp only [main, hp, setup, hs, hr, hc, if_false, if_true, ne_eq, not_false_eq_true]
  refine ⟨_, hm, ?_, ?_, ?_⟩
  · simp
  · simp only [List.countP_append, k1, x1]
    split <;> split <;> split <;> simp [Call.isSend]
  · simp only [List.countP_append, k2, x2]
    split <;> split <;> split <;> simp [Call.isGettimeofday]

/-- C8 (witness): `emuclient --config a.xml --check`. -/
theorem validate_only_witness :
    ∃ calls, main quiet ["emuclient", "--config", "a.xml", "--check"] = Outcome.exit 0 calls ∧
      Call.read_config_file (some "a.xml") ∈ calls ∧
      calls.countP Call.isSend = 0 ∧ calls.countP Call.isGettimeofday = 0 :=
  validate_only quiet ["emuclient", "--config", "a.xml", "--check"]
    { Settings.initial 10000 with config_file := some "a.xml", read := 1, check_config := 1,
                                  values := [2] }
    (by decide) (by decide) (by decide) (by decide)

/-- C9 (failing input): `emuclient --refresh 0` sets `refresh` to 0 and the
recomputation of `postpone_count` divides by zero, whatever the default
period. -/
theorem refresh_zero_divides_by_zero (D : Int) :
    atoi "0" = 0 ∧
    parse D ["emuclient", "--refresh", "0"] = Except.error Fault.division_by_zero := by
  exact ⟨by decide, rfl⟩

/-- C10 (failing input): for `emuclient --config` (`argc` is 2) the guard
`i < argc` holds at `i = 1` and the value is read at index 2, which is not
below `argc`: `config_file` becomes the null pointer that ends `argv`. -/
theorem config_value_read_at_argc (D : Int) :
    ∃ st, parse D ["emuclient", "--config"] = Except.ok st ∧
      st.values = [2] ∧ st.config_file = none ∧ st.read = 1 ∧
      ¬ (2 < ["emuclient", "--config"].length) := by
  exact ⟨_, rfl, rfl, rfl, rfl, by decide⟩

end GIMX
